import Mathlib

/-!
Verification of the embedding-indexed retrieval engine of the AIBOOKCURATION
repository.  Machine floats are modelled as exact rationals, Python's `round`
as round-half-to-even, Python lists as `List`, pandas frames as explicit
column lists plus row lists, and the external embedding model / FAISS search
as function parameters whose documented contract (at most `k` hits, distances
ascending) appears as an explicit hypothesis where a theorem needs it.
Python's stable `sort` is modelled by the stable insertion sort.

Sources embedded: `backend/core/retriever_v2.py` (`BookRetrieverV2`),
`backend/core/retriever.py` (`BookRetriever`), `backend/core/reranker.py`
(`BookReranker`), `backend/build_index_v2.py`.
-/

namespace AIBook

variable {α β : Type*}

/-- Python's builtin `max(a, b)` on rationals. -/
def pymax (a b : ℚ) : ℚ := if a < b then b else a

/-- Python's builtin `min(a, b)` on rationals. -/
def pymin (a b : ℚ) : ℚ := if b < a then b else a

/-- The floor of a rational, written so that the kernel can evaluate it
(`Int` division is Euclidean, and the denominator is positive). -/
def ratFloor (x : ℚ) : ℤ := x.num / (x.den : ℤ)

/-- Python's builtin `round(x)` on an exact rational: round half to even. -/
def pyRound (x : ℚ) : ℤ :=
  if x - (ratFloor x : ℚ) < 1/2 then ratFloor x
  else if 1/2 < x - (ratFloor x : ℚ) then ratFloor x + 1
  else if ratFloor x % 2 = 0 then ratFloor x else ratFloor x + 1

/-- Python's `round(x, k)` for `k ≥ 0` digits. -/
def roundTo (x : ℚ) (k : ℕ) : ℚ := (pyRound (x * 10 ^ k) : ℚ) / 10 ^ k

/-- Python `enumerate(l, start)` as a list of `(index, element)` pairs. -/
def withRanks (start : ℕ) : List α → List (ℕ × α)
  | [] => []
  | x :: xs => (start, x) :: withRanks (start + 1) xs

/-- Python `max(l)` with a default for the empty list (the source guards the
empty case separately and supplies the default there). -/
def listMax : List ℚ → ℚ → ℚ
  | [], d => d
  | x :: xs, _ => xs.foldl pymax x

/-- Python `min(l)` with a default for the empty list. -/
def listMin : List ℚ → ℚ → ℚ
  | [], d => d
  | x :: xs, _ => xs.foldl pymin x

/-- Python's string slice `s[:n]`: the first `n` characters. -/
def pyTake (s : String) (n : ℕ) : String := String.mk (s.data.take n)

/-- Python's stable `sorted(l, key=…, reverse=True)` on a rational key,
modelled by the stable insertion sort with respect to `key b ≤ key a`. -/
def sortByKeyDesc (key : α → ℚ) (l : List α) : List α :=
  l.insertionSort fun a b => key b ≤ key a

/-! ## Generation-2 retriever: `backend/core/retriever_v2.py` -/

/-- One row of `meta.parquet` as read by the v2 retriever. -/
structure MetaRow where
  title : String
  author : Option String
  description : Option String
deriving DecidableEq, Repr, Inhabited

/-- One result dict produced by `BookRetrieverV2.retrieve`. -/
structure ResultV2 where
  id : String
  title : String
  author : Option String
  description : Option String
  content : Option String
  rank : ℕ
  score : ℚ
  score_pct : ℤ
  distance : ℚ
deriving DecidableEq, Repr, Inhabited

namespace BookRetrieverV2

/-- Source `BookRetrieverV2._cosine_from_l2_squared`:
`cos = 1.0 - dist/2.0` followed by the safety clamp
`max(0.0, min(1.0, cos))`. -/
def cosine_from_l2_squared (dist : ℚ) : ℚ :=
  pymax 0 (pymin 1 (1 - dist / 2))

/-- The on-disk state `BookRetrieverV2.__init__` is run against: presence of
the two artifact files, the `ntotal` vector count of the FAISS index, and the
column list and row count of `meta.parquet`. -/
structure StoreOnDisk where
  indexExists : Bool
  metaExists : Bool
  ntotal : ℕ
  metaCols : List String
  metaNrows : ℕ
deriving DecidableEq, Repr

/-- The four exceptions `BookRetrieverV2.__init__` can raise. -/
inductive LoadError
  | indexFileMissing
  | metaFileMissing
  | noRowIdColumn
  | countMismatch
deriving DecidableEq, Repr

/-- A successfully constructed retriever (the only state later queries use). -/
structure Handle where
  ntotal : ℕ
  metaNrows : ℕ
deriving DecidableEq, Repr

/-- Source `BookRetrieverV2.__init__` viewed as the Index-Store load operation.  The
checks appear in source order: index file exists, meta file exists, `row_id`
column present, `ntotal` equals the metadata row count.  A raised exception
is an `Except.error`, and no `Handle` exists for it. -/
def load (s : StoreOnDisk) : Except LoadError Handle :=
  if s.indexExists = false then .error .indexFileMissing
  else if s.metaExists = false then .error .metaFileMissing
  else if "row_id" ∉ s.metaCols then .error .noRowIdColumn
  else if s.ntotal ≠ s.metaNrows then .error .countMismatch
  else .ok ⟨s.ntotal, s.metaNrows⟩

/-- The result dict built in the loop body of `BookRetrieverV2.retrieve`. -/
def mkResult (meta : ℕ → MetaRow) (rank : ℕ) (row_id : ℤ) (dist : ℚ) : ResultV2 :=
  let row := meta row_id.toNat
  let score := cosine_from_l2_squared dist
  { id := toString row_id
    title := row.title
    author := row.author
    description := row.description
    content := row.description
    rank := rank
    score := roundTo score 6
    score_pct := pyRound (score * 100)
    distance := dist }

/-- The body of `BookRetrieverV2.retrieve` after the FAISS call: enumerate
the zipped `(row_id, dist)` rows from rank 1, skip negative ids, build the
result dicts, and sort by the stored `score` field descending. -/
def retrieveCore (meta : ℕ → MetaRow) (ids : List ℤ) (dists : List ℚ) :
    List ResultV2 :=
  let results := (withRanks 1 (ids.zip dists)).filterMap fun rp =>
    if rp.2.1 < 0 then none else some (mkResult meta rp.1 rp.2.1 rp.2.2)
  sortByKeyDesc (fun r => r.score) results

/-- Source `BookRetrieverV2.retrieve`.  `search` stands for the composition of
`_embed_query` (which prepends the `query: ` prefix) with
`faiss.Index.search`, returning the id row and the distance row; `meta` is
the `row_id`-indexed metadata table (`__init__` guarantees every
non-negative id returned by the search is a valid row index). -/
def retrieve (meta : ℕ → MetaRow) (search : String → ℤ → List ℤ × List ℚ)
    (query : String) (top_k : ℤ) : List ResultV2 :=
  if query = "" ∨ query.trim = "" then []
  else if top_k ≤ 0 then []
  else
    let out := search ("query: " ++ query) top_k
    retrieveCore meta out.1 out.2

end BookRetrieverV2

/-! ## Generation-1 retriever: `backend/core/retriever.py` -/

/-- The metadata dict attached to a LangChain document by `BookIndexer`. -/
structure DocMeta where
  title : Option String
  author : Option String
  publisher : Option String
  isbn : Option String
  description : Option String
deriving DecidableEq, Repr, Inhabited

/-- One result dict produced by `BookRetriever.retrieve`. -/
structure ResultV1 where
  title : String
  author : Option String
  publisher : Option String
  isbn : Option String
  content : String
  rank : ℕ
  score : ℚ
  score_pct : ℤ
  rel_pct : ℤ
  stars : ℚ
  distance : Option ℚ
deriving DecidableEq, Repr, Inhabited

namespace BookRetriever

/-- The distance→cosine step of `BookRetriever.retrieve`: a missing distance
(the no-score fallback branch) maps to `1.0`, otherwise
`max(0.0, min(1.0, 1.0 - dist/2.0))`. -/
def cosFromDist : Option ℚ → ℚ
  | none => 1
  | some d => pymax 0 (pymin 1 (1 - d / 2))

/-- The `eps = 1e-8` constant of `BookRetriever.retrieve`. -/
def eps : ℚ := 1 / 100000000

/-- Source `to_stars` in `BookRetriever.retrieve`: `max(0.5, round(c * 5 * 2) / 2)`. -/
def to_stars (c : ℚ) : ℚ := pymax (1/2) ((pyRound (c * 5 * 2) : ℚ) / 2)

/-- One entry of the `results` list of `BookRetriever.retrieve`. -/
def mkResult (rank : ℕ) (doc : DocMeta) (dist : Option ℚ) (cos rel : ℚ) :
    ResultV1 :=
  { title := doc.title.getD ""
    author := doc.author
    publisher := doc.publisher
    isbn := doc.isbn
    content := doc.description.getD ""
    rank := rank
    score := roundTo cos 3
    score_pct := pyRound (cos * 100)
    rel_pct := pyRound (rel * 100)
    stars := to_stars cos
    distance := dist }

/-- The body of `BookRetriever.retrieve` after the search call: `pairs` is
the `[(doc, dist)]` list returned by `similarity_search_with_score`
(a `none` distance models the score-less fallback branch).  Mirrors the
source: build `rows` with calibrated cosines, min-max–normalize the cosines
over the set with the `eps` guard, rescale to `[0.10, 1.00]`, build the
result dicts with rank, and sort by the stored rounded `score` descending. -/
def retrieveCore (pairs : List (DocMeta × Option ℚ)) : List ResultV1 :=
  let rows := pairs.map fun pd => (pd.1, pd.2, cosFromDist pd.2)
  let cosines := rows.map fun t => t.2.2
  let cmax := listMax cosines 1
  let cmin := listMin cosines 0
  let rels0 := cosines.map fun c => (c - cmin) / (cmax - cmin + eps)
  let rels := rels0.map fun r => 1/10 + r * (9/10)
  let results := (withRanks 1 (rows.zip rels)).map fun ir =>
    mkResult ir.1 ir.2.1.1 ir.2.1.2.1 ir.2.1.2.2 ir.2.2
  sortByKeyDesc (fun r => r.score) results

/-- Source `BookRetriever.retrieve`: prepends the `query: ` prefix and searches
immediately — unlike the v2 retriever there is no guard on empty or
whitespace-only queries nor on non-positive `top_k`.  `search` stands for
`self.vs.similarity_search_with_score`. -/
def retrieve (search : String → ℤ → List (DocMeta × Option ℚ))
    (query : String) (top_k : ℤ) : List ResultV1 :=
  retrieveCore (search ("query: " ++ query) top_k)

/-- Value `cmax` as computed in `BookRetriever.retrieve` for a search result set
(Python `max` over the calibrated cosines, default `1.0` when empty). -/
def cmaxOf (pairs : List (DocMeta × Option ℚ)) : ℚ :=
  listMax (pairs.map fun pd => cosFromDist pd.2) 1

/-- Value `cmin` as computed in `BookRetriever.retrieve` (Python `min` over the
calibrated cosines, default `0.0` when empty). -/
def cminOf (pairs : List (DocMeta × Option ℚ)) : ℚ :=
  listMin (pairs.map fun pd => cosFromDist pd.2) 0

end BookRetriever

/-! ## Reranker: `backend/core/reranker.py` -/

/-- A candidate dict as the reranker sees it: the `content` field it reads
and the `rerank_score` field it writes (absent until the reranker adds it;
the dict's other fields are untouched by `rerank` and elided). -/
structure Candidate where
  content : String
  rerank_score : Option ℚ
deriving DecidableEq, Repr, Inhabited

namespace BookReranker

/-- The mutable store of candidate dicts: the caller's `candidates` list
holds references (aliases) into this heap. -/
abbrev Heap := ℕ → Candidate

/-- Statement `doc["rerank_score"] = float(score)` on one dict. -/
def setScore (d : Candidate) (s : ℚ) : Candidate := { d with rerank_score := some s }

/-- Source `BookReranker.rerank`.  `predict` stands for `self.model.predict` (the
external cross-encoder); `heap` is the dict store and `candidates` the
caller's list of references.  Builds the `(query, content)` pairs, scores
them, writes `rerank_score` into every candidate dict in place, then returns
the updated heap together with the references sorted descending by
`rerank_score` and truncated to `top_k`. -/
def rerank (predict : List (String × String) → List ℚ) (heap : Heap)
    (query : String) (candidates : List ℕ) (top_k : ℕ) : Heap × List ℕ :=
  let pairs := candidates.map fun r => (query, (heap r).content)
  let scores := predict pairs
  let heap' : Heap := (candidates.zip scores).foldl
    (fun h rs => Function.update h rs.1 (setScore (h rs.1) rs.2)) heap
  let sorted := sortByKeyDesc (fun r => ((heap' r).rerank_score).getD 0) candidates
  (heap', sorted.take top_k)

end BookReranker

/-! ## Index builder: `backend/build_index_v2.py` -/

namespace BuildIndexV2

/-- The input dataframe: its column names and, per row, the
title/author/description cells (`none` = NaN; other columns are dropped by
`_ensure_columns` and never used afterwards). -/
structure DataFrame where
  cols : List String
  rows : List (Option String × Option String × Option String)
deriving DecidableEq, Repr, Inhabited

/-- One row of `df_meta`: dense `row_id` plus the NaN-filled display fields. -/
structure MetaRowB where
  row_id : ℕ
  title : String
  author : String
  description : String
deriving DecidableEq, Repr, Inhabited

/-- The exceptions `build_index_v2` raises before any embedding work. -/
inductive BuildError
  | missingColumns
  | emptyData
deriving DecidableEq, Repr

/-- The externally visible actions of one build run, in order.  The two
`reopen` events are in the vocabulary so that a post-write verification step
could be expressed; the source never performs one. -/
inductive BuildEvent
  | modelLoad
  | embedCall (texts : List String)
  | writeIndex
  | writeMeta
  | reopenIndex
  | reopenMeta
deriving DecidableEq, Repr

/-- Default `MAX_CHARS` (description clip length). -/
def MAX_CHARS : ℕ := 1200

/-- Default `EMBED_BATCH_SIZE`. -/
def BATCH_SIZE : ℕ := 32

/-- Source `_make_passage_text`: E5 passage prefix, title/author line, and the
description clipped to `MAX_CHARS` characters. -/
def make_passage_text (title author desc : String) : String :=
  "passage: 제목: " ++ title ++ " / 저자: " ++ author ++ "\n설명: " ++
    pyTake desc MAX_CHARS

/-- Source `_ensure_columns`: fatal unless the title/author/description columns are
all present; fills missing cells with `""` and assigns dense
`row_id = 0..N-1` in iteration order. -/
def ensure_columns (df : DataFrame) : Except BuildError (List MetaRowB) :=
  if "title" ∈ df.cols ∧ "author" ∈ df.cols ∧ "description" ∈ df.cols then
    .ok ((withRanks 0 df.rows).map fun ir =>
      { row_id := ir.1
        title := ir.2.1.getD ""
        author := ir.2.2.1.getD ""
        description := ir.2.2.2.getD "" })
  else .error .missingColumns

/-- The batch partition of the metadata rows: first `min BATCH_SIZE n` rows,
then the rest in `BATCH_SIZE` chunks — the first-batch/loop split of
`build_index_v2`. -/
def chunksAux : ℕ → List α → List (List α)
  | 0, _ => []
  | _, [] => []
  | fuel + 1, x :: xs =>
    ((x :: xs).take BATCH_SIZE) :: chunksAux fuel ((x :: xs).drop BATCH_SIZE)

/-- See `chunksAux`; the fuel is the row count, which bounds the number of
non-empty chunks, so the fuel never runs out. -/
def chunks (l : List α) : List (List α) := chunksAux l.length l

/-- Source `build_index_v2` as a result plus the ordered trace of its externally
visible actions: load the dataframe and normalize columns (fatal on missing
columns, empty trace), load the model, raise on an empty dataset before any
embedding call, otherwise one `model.encode` call per batch followed by the
two artifact writes.  The function returns right after the writes: no
`reopen` event is ever emitted. -/
def build_index_v2 (df : DataFrame) : Except BuildError Unit × List BuildEvent :=
  match ensure_columns df with
  | .error e => (.error e, [])
  | .ok df_meta =>
    if df_meta.length = 0 then (.error .emptyData, [.modelLoad])
    else
      (.ok (),
        .modelLoad ::
          ((chunks df_meta).map fun ch =>
            .embedCall (ch.map fun r =>
              make_passage_text r.title r.author r.description)) ++
          [.writeIndex, .writeMeta])

end BuildIndexV2

/-! ## Helper lemmas -/

theorem pymax_eq_max (a b : ℚ) : pymax a b = max a b := by
  unfold pymax
  split_ifs with h
  · exact (max_eq_right h.le).symm
  · exact (max_eq_left (not_lt.mp h)).symm

theorem pymin_eq_min (a b : ℚ) : pymin a b = min a b := by
  unfold pymin
  split_ifs with h
  · exact (min_eq_right h.le).symm
  · exact (min_eq_left (not_lt.mp h)).symm

theorem ratFloor_eq (x : ℚ) : ratFloor x = ⌊x⌋ := Rat.floor_def.symm

theorem pyRound_cases (x : ℚ) :
    pyRound x = ⌊x⌋ ∨ (pyRound x = ⌊x⌋ + 1 ∧ 1/2 ≤ x - ⌊x⌋) := by
  unfold pyRound
  rw [ratFloor_eq]
  split_ifs with h1 h2 h3
  · exact Or.inl rfl
  · exact Or.inr ⟨rfl, le_of_not_lt h1⟩
  · exact Or.inl rfl
  · exact Or.inr ⟨rfl, le_of_not_lt h1⟩

theorem floor_le_pyRound (x : ℚ) : ⌊x⌋ ≤ pyRound x := by
  rcases pyRound_cases x with h | ⟨h, _⟩ <;> omega

theorem pyRound_le_floor_add_one (x : ℚ) : pyRound x ≤ ⌊x⌋ + 1 := by
  rcases pyRound_cases x with h | ⟨h, _⟩ <;> omega

theorem pyRound_nonneg {x : ℚ} (hx : 0 ≤ x) : 0 ≤ pyRound x := by
  have : (0 : ℤ) ≤ ⌊x⌋ := Int.floor_nonneg.mpr hx
  have := floor_le_pyRound x
  omega

theorem pyRound_le {x : ℚ} {m : ℤ} (hx : x ≤ (m : ℚ)) : pyRound x ≤ m := by
  rcases pyRound_cases x with h | ⟨h, hf⟩
  · have : ⌊x⌋ ≤ m := by
      calc ⌊x⌋ ≤ ⌊(m : ℚ)⌋ := Int.floor_mono hx
      _ = m := Int.floor_intCast m
    omega
  · have h1 : (⌊x⌋ : ℚ) + 1/2 ≤ (m : ℚ) := by
      have := Int.floor_le x
      linarith
    have h2 : (⌊x⌋ : ℚ) < (m : ℚ) := by linarith
    have : ⌊x⌋ < m := by exact_mod_cast h2
    omega

theorem le_pyRound {x : ℚ} {m : ℤ} (hx : (m : ℚ) ≤ x) : m ≤ pyRound x := by
  have h1 : m ≤ ⌊x⌋ := Int.le_floor.mpr hx
  have := floor_le_pyRound x
  omega

theorem pyRound_le_of_lt_add_half {x : ℚ} {m : ℤ} (hx : x < (m : ℚ) + 1/2) :
    pyRound x ≤ m := by
  rcases pyRound_cases x with h | ⟨h, hf⟩
  · have h2 : x < (m : ℚ) + 1 := by linarith
    have : ⌊x⌋ < m + 1 := by
      rw [Int.floor_lt]
      push_cast
      linarith
    omega
  · have h1 : (⌊x⌋ : ℚ) + 1/2 ≤ x := by linarith
    have h2 : (⌊x⌋ : ℚ) < (m : ℚ) := by linarith
    have : ⌊x⌋ < m := by exact_mod_cast h2
    omega

theorem pyRound_mono {x y : ℚ} (hxy : x ≤ y) : pyRound x ≤ pyRound y := by
  have hfl : ⌊x⌋ ≤ ⌊y⌋ := Int.floor_mono hxy
  rcases lt_or_eq_of_le hfl with hlt | heq
  · have h1 := pyRound_le_floor_add_one x
    have h2 := floor_le_pyRound y
    omega
  · have hfrac : x - ⌊x⌋ ≤ y - ⌊y⌋ := by
      rw [← heq]
      linarith
    unfold pyRound
    rw [ratFloor_eq, ratFloor_eq, ← heq]
    rw [← heq] at hfrac
    split_ifs <;> first | omega | linarith

theorem pyRound_intCast (m : ℤ) : pyRound (m : ℚ) = m := by
  have h1 := pyRound_le (x := (m : ℚ)) (m := m) le_rfl
  have h2 := le_pyRound (x := (m : ℚ)) (m := m) le_rfl
  omega

theorem roundTo_nonneg {x : ℚ} (k : ℕ) (hx : 0 ≤ x) : 0 ≤ roundTo x k := by
  unfold roundTo
  have hp : (0 : ℚ) < 10 ^ k := by positivity
  have : (0 : ℤ) ≤ pyRound (x * 10 ^ k) := pyRound_nonneg (by positivity)
  have : (0 : ℚ) ≤ (pyRound (x * 10 ^ k) : ℚ) := by exact_mod_cast this
  positivity

theorem roundTo_le_one {x : ℚ} (k : ℕ) (hx : x ≤ 1) : roundTo x k ≤ 1 := by
  unfold roundTo
  have hp : (0 : ℚ) < 10 ^ k := by positivity
  have h1 : x * 10 ^ k ≤ ((10 ^ k : ℤ) : ℚ) := by
    push_cast
    nlinarith
  have h2 : pyRound (x * 10 ^ k) ≤ (10 ^ k : ℤ) := pyRound_le h1
  have h3 : (pyRound (x * 10 ^ k) : ℚ) ≤ ((10 ^ k : ℤ) : ℚ) := by exact_mod_cast h2
  rw [div_le_one hp]
  push_cast at h3 ⊢
  exact h3

theorem roundTo_mono {x y : ℚ} (k : ℕ) (hxy : x ≤ y) : roundTo x k ≤ roundTo y k := by
  unfold roundTo
  have hp : (0 : ℚ) < 10 ^ k := by positivity
  have h1 : x * 10 ^ k ≤ y * 10 ^ k := by nlinarith
  have h2 := pyRound_mono h1
  have h3 : (pyRound (x * 10 ^ k) : ℚ) ≤ (pyRound (y * 10 ^ k) : ℚ) := by
    exact_mod_cast h2
  exact div_le_div_of_nonneg_right h3 hp.le

theorem withRanks_map (f : α → β) (s : ℕ) :
    ∀ l : List α, withRanks s (l.map f) = (withRanks s l).map fun p => (p.1, f p.2)
  | [] => rfl
  | x :: xs => by simp [withRanks, withRanks_map f (s + 1) xs]

theorem mem_withRanks {p : ℕ × α} :
    ∀ {s : ℕ} {l : List α}, p ∈ withRanks s l → p.2 ∈ l := by
  intro s l
  induction l generalizing s with
  | nil => simp [withRanks]
  | cons x xs ih =>
    intro hp
    rw [withRanks] at hp
    rcases List.mem_cons.mp hp with rfl | hp
    · exact List.mem_cons_self x xs
    · exact List.mem_cons_of_mem x (ih hp)

theorem length_withRanks : ∀ (s : ℕ) (l : List α), (withRanks s l).length = l.length
  | _, [] => rfl
  | s, _ :: xs => by simp [withRanks, length_withRanks (s + 1) xs]

theorem pairwise_withRanks {R : α → α → Prop} :
    ∀ {s : ℕ} {l : List α}, l.Pairwise R →
      (withRanks s l).Pairwise fun p q => R p.2 q.2 := by
  intro s l
  induction l generalizing s with
  | nil => simp [withRanks]
  | cons x xs ih =>
    intro hl
    rcases List.pairwise_cons.mp hl with ⟨hx, hxs⟩
    rw [withRanks]
    exact List.pairwise_cons.mpr ⟨fun q hq => hx q.2 (mem_withRanks hq), ih hxs⟩

theorem foldl_pymax_eq : ∀ (l : List ℚ) (a : ℚ), l.foldl pymax a = l.foldl max a
  | [], _ => rfl
  | y :: ys, a => by
    simp only [List.foldl, pymax_eq_max, foldl_pymax_eq ys]

theorem foldl_pymin_eq : ∀ (l : List ℚ) (a : ℚ), l.foldl pymin a = l.foldl min a
  | [], _ => rfl
  | y :: ys, a => by
    simp only [List.foldl, pymin_eq_min, foldl_pymin_eq ys]

theorem le_foldl_max : ∀ (l : List ℚ) (a : ℚ), a ≤ l.foldl max a
  | [], _ => le_refl _
  | y :: ys, a => le_trans (le_max_left a y) (le_foldl_max ys (max a y))

theorem foldl_max_le_of_mem {x : ℚ} :
    ∀ {l : List ℚ} {a : ℚ}, x ∈ l → x ≤ l.foldl max a := by
  intro l
  induction l with
  | nil => simp
  | cons y ys ih =>
    intro a hx
    rcases List.mem_cons.mp hx with rfl | hx
    · exact le_trans (le_max_right a x) (le_foldl_max ys (max a x))
    · exact ih hx

theorem le_listMax {c : ℚ} {l : List ℚ} (d : ℚ) (hc : c ∈ l) : c ≤ listMax l d := by
  cases l with
  | nil => cases hc
  | cons x xs =>
    rw [listMax, foldl_pymax_eq]
    rcases List.mem_cons.mp hc with rfl | hc
    · exact le_foldl_max xs c
    · exact foldl_max_le_of_mem hc

theorem foldl_min_le : ∀ (l : List ℚ) (a : ℚ), l.foldl min a ≤ a
  | [], _ => le_refl _
  | y :: ys, a => le_trans (foldl_min_le ys (min a y)) (min_le_left a y)

theorem foldl_min_le_of_mem {x : ℚ} :
    ∀ {l : List ℚ} {a : ℚ}, x ∈ l → l.foldl min a ≤ x := by
  intro l
  induction l with
  | nil => simp
  | cons y ys ih =>
    intro a hx
    rcases List.mem_cons.mp hx with rfl | hx
    · exact le_trans (foldl_min_le ys (min a x)) (min_le_right a x)
    · exact ih hx

theorem listMin_le {c : ℚ} {l : List ℚ} (d : ℚ) (hc : c ∈ l) : listMin l d ≤ c := by
  cases l with
  | nil => cases hc
  | cons x xs =>
    rw [listMin, foldl_pymin_eq]
    rcases List.mem_cons.mp hc with rfl | hc
    · exact foldl_min_le xs c
    · exact foldl_min_le_of_mem hc

theorem foldl_max_eq_self {a : ℚ} :
    ∀ {l : List ℚ}, (∀ y ∈ l, y ≤ a) → l.foldl max a = a := by
  intro l
  induction l with
  | nil => intro; rfl
  | cons y ys ih =>
    intro h
    have hy : max a y = a := max_eq_left (h y (List.mem_cons_self y ys))
    calc (y :: ys).foldl max a = ys.foldl max (max a y) := rfl
    _ = ys.foldl max a := by rw [hy]
    _ = a := ih fun z hz => h z (List.mem_cons_of_mem y hz)

theorem listMax_cons_of_le {x : ℚ} {xs : List ℚ} (d : ℚ) (h : ∀ y ∈ xs, y ≤ x) :
    listMax (x :: xs) d = x := by
  rw [listMax, foldl_pymax_eq]
  exact foldl_max_eq_self h

theorem perm_sortByKeyDesc (key : α → ℚ) (l : List α) :
    List.Perm (sortByKeyDesc key l) l :=
  List.perm_insertionSort _ l

theorem mem_sortByKeyDesc {key : α → ℚ} {l : List α} {x : α} :
    x ∈ sortByKeyDesc key l ↔ x ∈ l :=
  (perm_sortByKeyDesc key l).mem_iff

theorem length_sortByKeyDesc (key : α → ℚ) (l : List α) :
    (sortByKeyDesc key l).length = l.length :=
  (perm_sortByKeyDesc key l).length_eq

theorem sorted_sortByKeyDesc (key : α → ℚ) (l : List α) :
    (sortByKeyDesc key l).Pairwise fun a b => key b ≤ key a := by
  letI : IsTotal α fun a b => key b ≤ key a := ⟨fun a b => le_total (key b) (key a)⟩
  letI : IsTrans α fun a b => key b ≤ key a :=
    ⟨fun _ _ _ hab hbc => le_trans hbc hab⟩
  exact List.sorted_insertionSort _ l

theorem sortByKeyDesc_eq_self {key : α → ℚ} {l : List α}
    (h : l.Pairwise fun a b => key b ≤ key a) : sortByKeyDesc key l = l :=
  List.Sorted.insertionSort_eq h

theorem zip_map_same (f : α → β) {γ : Type*} (g : α → γ) :
    ∀ l : List α, (l.map f).zip (l.map g) = l.map fun a => (f a, g a)
  | [] => rfl
  | x :: xs => by simp only [List.map_cons, List.zip_cons_cons, zip_map_same f g xs]

theorem pairwise_zip_snd {γ : Type*} {R : γ → γ → Prop} :
    ∀ {l₁ : List α} {l₂ : List γ}, l₂.Pairwise R →
      (l₁.zip l₂).Pairwise fun p q => R p.2 q.2 := by
  intro l₁
  induction l₁ with
  | nil => simp
  | cons x xs ih =>
    intro l₂ h
    cases l₂ with
    | nil => simp
    | cons y ys =>
      rcases List.pairwise_cons.mp h with ⟨hy, hys⟩
      rw [List.zip_cons_cons]
      refine List.pairwise_cons.mpr ⟨?_, ih hys⟩
      intro q hq
      exact hy q.2 (List.of_mem_zip hq).2

theorem pairwise_filterMap_of {γ : Type*} {R : α → α → Prop} {S : γ → γ → Prop}
    (f : α → Option γ)
    (hf : ∀ a b ra rb, R a b → f a = some ra → f b = some rb → S ra rb) :
    ∀ {l : List α}, l.Pairwise R → (l.filterMap f).Pairwise S := by
  intro l
  induction l with
  | nil => simp
  | cons x xs ih =>
    intro h
    rcases List.pairwise_cons.mp h with ⟨hx, hxs⟩
    rw [List.filterMap_cons]
    cases hfx : f x with
    | none => exact ih hxs
    | some rx =>
      refine List.pairwise_cons.mpr ⟨?_, ih hxs⟩
      intro rb hrb
      rcases List.mem_filterMap.mp hrb with ⟨b, hbmem, hfb⟩
      exact hf x b rx rb (hx b hbmem) hfx hfb

theorem cosine_from_l2_squared_nonneg (d : ℚ) :
    0 ≤ BookRetrieverV2.cosine_from_l2_squared d := by
  unfold BookRetrieverV2.cosine_from_l2_squared
  rw [pymax_eq_max]
  exact le_max_left 0 _

theorem cosine_from_l2_squared_le_one (d : ℚ) :
    BookRetrieverV2.cosine_from_l2_squared d ≤ 1 := by
  unfold BookRetrieverV2.cosine_from_l2_squared
  rw [pymax_eq_max, pymin_eq_min]
  exact max_le (by norm_num) (min_le_left 1 _)

theorem cosine_from_l2_squared_anti {d d' : ℚ} (h : d ≤ d') :
    BookRetrieverV2.cosine_from_l2_squared d' ≤
      BookRetrieverV2.cosine_from_l2_squared d := by
  unfold BookRetrieverV2.cosine_from_l2_squared
  rw [pymax_eq_max, pymax_eq_max, pymin_eq_min, pymin_eq_min]
  exact max_le_max le_rfl (min_le_min le_rfl (by linarith))

theorem cosFromDist_nonneg (od : Option ℚ) : 0 ≤ BookRetriever.cosFromDist od := by
  cases od with
  | none => norm_num [BookRetriever.cosFromDist]
  | some d =>
    rw [BookRetriever.cosFromDist, pymax_eq_max]
    exact le_max_left 0 _

theorem cosFromDist_le_one (od : Option ℚ) : BookRetriever.cosFromDist od ≤ 1 := by
  cases od with
  | none => norm_num [BookRetriever.cosFromDist]
  | some d =>
    rw [BookRetriever.cosFromDist, pymax_eq_max, pymin_eq_min]
    exact max_le (by norm_num) (min_le_left 1 _)

theorem retrieveV1core_eq (pairs : List (DocMeta × Option ℚ)) :
    BookRetriever.retrieveCore pairs =
      sortByKeyDesc (fun r => r.score)
        ((withRanks 1 pairs).map fun ip =>
          BookRetriever.mkResult ip.1 ip.2.1 ip.2.2
            (BookRetriever.cosFromDist ip.2.2)
            (1/10 + ((BookRetriever.cosFromDist ip.2.2 - BookRetriever.cminOf pairs) /
              (BookRetriever.cmaxOf pairs - BookRetriever.cminOf pairs +
                BookRetriever.eps)) * (9/10))) := by
  unfold BookRetriever.retrieveCore BookRetriever.cmaxOf BookRetriever.cminOf
  simp only [List.map_map]
  rw [zip_map_same, withRanks_map]
  simp only [List.map_map]
  rfl

theorem length_retrieveV1core (pairs : List (DocMeta × Option ℚ)) :
    (BookRetriever.retrieveCore pairs).length = pairs.length := by
  rw [retrieveV1core_eq, length_sortByKeyDesc, List.length_map, length_withRanks]

theorem exists_of_mem_retrieveV1core {pairs : List (DocMeta × Option ℚ)}
    {r : ResultV1} (hr : r ∈ BookRetriever.retrieveCore pairs) :
    ∃ (rank : ℕ) (pd : DocMeta × Option ℚ) (rel : ℚ), pd ∈ pairs ∧
      r = BookRetriever.mkResult rank pd.1 pd.2 (BookRetriever.cosFromDist pd.2) rel := by
  rw [retrieveV1core_eq, mem_sortByKeyDesc] at hr
  rcases List.mem_map.mp hr with ⟨ip, hip, rfl⟩
  exact ⟨ip.1, ip.2, _, mem_withRanks hip, rfl⟩

theorem retrieveV1core_pairwise (pairs : List (DocMeta × Option ℚ))
    (hs : pairs.Pairwise fun p q =>
      BookRetriever.cosFromDist q.2 ≤ BookRetriever.cosFromDist p.2) :
    (BookRetriever.retrieveCore pairs).Pairwise fun a b =>
      BookRetriever.cosFromDist b.distance ≤ BookRetriever.cosFromDist a.distance := by
  rw [retrieveV1core_eq]
  have hpw : ((withRanks 1 pairs).map fun ip =>
      BookRetriever.mkResult ip.1 ip.2.1 ip.2.2
        (BookRetriever.cosFromDist ip.2.2)
        (1/10 + ((BookRetriever.cosFromDist ip.2.2 - BookRetriever.cminOf pairs) /
          (BookRetriever.cmaxOf pairs - BookRetriever.cminOf pairs +
            BookRetriever.eps)) * (9/10))).Pairwise fun a b =>
      BookRetriever.cosFromDist b.distance ≤ BookRetriever.cosFromDist a.distance ∧
        b.score ≤ a.score := by
    rw [List.pairwise_map]
    refine (pairwise_withRanks hs).imp ?_
    intro ip iq h
    exact ⟨h, roundTo_mono 3 h⟩
  rw [sortByKeyDesc_eq_self (hpw.imp fun h => h.2)]
  exact hpw.imp fun h => h.1

theorem length_retrieveV2core_le (meta : ℕ → MetaRow) (ids : List ℤ)
    (dists : List ℚ) :
    (BookRetrieverV2.retrieveCore meta ids dists).length ≤ ids.length := by
  unfold BookRetrieverV2.retrieveCore
  rw [length_sortByKeyDesc]
  calc ((withRanks 1 (ids.zip dists)).filterMap _).length
      ≤ (withRanks 1 (ids.zip dists)).length := List.length_filterMap_le _ _
    _ = (ids.zip dists).length := length_withRanks _ _
    _ ≤ ids.length := by
        rw [List.length_zip]
        exact Nat.min_le_left _ _

theorem exists_of_mem_retrieveV2core {meta : ℕ → MetaRow} {ids : List ℤ}
    {dists : List ℚ} {r : ResultV2}
    (hr : r ∈ BookRetrieverV2.retrieveCore meta ids dists) :
    ∃ (rank : ℕ) (rid : ℤ) (d : ℚ), (rid, d) ∈ ids.zip dists ∧ ¬rid < 0 ∧
      r = BookRetrieverV2.mkResult meta rank rid d := by
  unfold BookRetrieverV2.retrieveCore at hr
  rw [mem_sortByKeyDesc] at hr
  rcases List.mem_filterMap.mp hr with ⟨rp, hrp, hsome⟩
  by_cases hneg : rp.2.1 < 0
  · simp [hneg] at hsome
  · rw [if_neg hneg, Option.some_inj] at hsome
    exact ⟨rp.1, rp.2.1, rp.2.2, by simpa using mem_withRanks hrp, hneg, hsome.symm⟩

theorem retrieveV2core_pairwise (meta : ℕ → MetaRow) (ids : List ℤ)
    (dists : List ℚ) (hs : dists.Pairwise (· ≤ ·)) :
    (BookRetrieverV2.retrieveCore meta ids dists).Pairwise fun a b =>
      BookRetrieverV2.cosine_from_l2_squared b.distance ≤
        BookRetrieverV2.cosine_from_l2_squared a.distance := by
  unfold BookRetrieverV2.retrieveCore
  have h2 := pairwise_withRanks (s := 1) (@pairwise_zip_snd ℤ ℚ _ ids dists hs)
  have hpw : ((withRanks 1 (ids.zip dists)).filterMap fun rp =>
      if rp.2.1 < 0 then none
      else some (BookRetrieverV2.mkResult meta rp.1 rp.2.1 rp.2.2)).Pairwise
        fun a b =>
          BookRetrieverV2.cosine_from_l2_squared b.distance ≤
            BookRetrieverV2.cosine_from_l2_squared a.distance ∧
          b.score ≤ a.score := by
    refine pairwise_filterMap_of _ ?_ h2
    intro a b ra rb hab hfa hfb
    by_cases ha : a.2.1 < 0
    · simp [ha] at hfa
    by_cases hb : b.2.1 < 0
    · simp [hb] at hfb
    rw [if_neg ha, Option.some_inj] at hfa
    rw [if_neg hb, Option.some_inj] at hfb
    subst hfa
    subst hfb
    exact ⟨cosine_from_l2_squared_anti hab, roundTo_mono 6 (cosine_from_l2_squared_anti hab)⟩
  rw [sortByKeyDesc_eq_self (hpw.imp fun h => h.2)]
  exact hpw.imp fun h => h.1

/-! ## Claims -/

/-- C1: the generation-2 Index-Store load (`BookRetrieverV2.__init__`)
yields a usable handle exactly when both artifact files exist, the metadata
table has the `row_id` column, and the FAISS vector count equals the
metadata row count.  Whenever either artifact is missing, the counts differ,
or `row_id` is absent, it raises instead and no handle exists — in
particular load succeeds on every (in particular every non-empty) consistent
store, and no partially or inconsistently loaded store is usable for
queries. -/
theorem C1_load_ok_iff (s : BookRetrieverV2.StoreOnDisk) :
    (∃ h, BookRetrieverV2.load s = .ok h) ↔
      (s.indexExists = true ∧ s.metaExists = true ∧
        "row_id" ∈ s.metaCols ∧ s.ntotal = s.metaNrows) := by
  unfold BookRetrieverV2.load
  split_ifs with h1 h2 h3 h4 <;> simp_all

/-- C2: `retrieve(q, k)` returns at most `k` results (none at all when `k`
is non-positive), and every returned result's cosine-similarity score lies
in `[0, 1]` — in both generations, given only the search backend's contract
that it returns at most `k` hits for the query it is handed. -/
theorem C2_at_most_k_and_unit_interval
    (meta : ℕ → MetaRow) (searchV2 : String → ℤ → List ℤ × List ℚ)
    (searchV1 : String → ℤ → List (DocMeta × Option ℚ))
    (q : String) (k : ℤ)
    (hV2 : ((searchV2 ("query: " ++ q) k).1.length : ℤ) ≤ max k 0)
    (hV1 : ((searchV1 ("query: " ++ q) k).length : ℤ) ≤ max k 0) :
    ((BookRetrieverV2.retrieve meta searchV2 q k).length : ℤ) ≤ max k 0 ∧
    (∀ r ∈ BookRetrieverV2.retrieve meta searchV2 q k,
        0 ≤ r.score ∧ r.score ≤ 1) ∧
    ((BookRetriever.retrieve searchV1 q k).length : ℤ) ≤ max k 0 ∧
    (∀ r ∈ BookRetriever.retrieve searchV1 q k,
        0 ≤ r.score ∧ r.score ≤ 1) := by
  refine ⟨?_, ?_, ?_, ?_⟩
  · unfold BookRetrieverV2.retrieve
    split_ifs
    · simp
    · simp
    · calc ((BookRetrieverV2.retrieveCore meta _ _).length : ℤ)
          ≤ ((searchV2 ("query: " ++ q) k).1.length : ℤ) :=
            Int.ofNat_le.mpr (length_retrieveV2core_le _ _ _)
        _ ≤ max k 0 := hV2
  · intro r hr
    unfold BookRetrieverV2.retrieve at hr
    split_ifs at hr
    · cases hr
    · cases hr
    · rcases exists_of_mem_retrieveV2core hr with ⟨rank, rid, d, _, _, rfl⟩
      exact ⟨roundTo_nonneg 6 (cosine_from_l2_squared_nonneg d),
        roundTo_le_one 6 (cosine_from_l2_squared_le_one d)⟩
  · unfold BookRetriever.retrieve
    calc ((BookRetriever.retrieveCore _).length : ℤ)
        = ((searchV1 ("query: " ++ q) k).length : ℤ) := by
          rw [length_retrieveV1core]
      _ ≤ max k 0 := hV1
  · intro r hr
    rcases exists_of_mem_retrieveV1core hr with ⟨rank, pd, rel, _, rfl⟩
    exact ⟨roundTo_nonneg 3 (cosFromDist_nonneg pd.2),
      roundTo_le_one 3 (cosFromDist_le_one pd.2)⟩

unseal Rat.add Rat.sub Rat.mul Rat.inv in
/-- Witness for C2 at a concrete store and query. -/
theorem C2_witness :
    ((((fun (_ : String) (_ : ℤ) => ([0], [(1 : ℚ)/2])) ("query: " ++ "dogs")
        (5 : ℤ)).1.length : ℤ) ≤ max 5 0) ∧
    ((((fun (_ : String) (_ : ℤ) => [((default : DocMeta), some (1 : ℚ))])
        ("query: " ++ "dogs") (5 : ℤ)).length : ℤ) ≤ max 5 0) ∧
    (((BookRetrieverV2.retrieve (fun _ => default)
        (fun _ _ => ([0], [(1 : ℚ)/2])) "dogs" 5).length : ℤ) ≤ max 5 0 ∧
    (∀ r ∈ BookRetrieverV2.retrieve (fun _ => default)
        (fun _ _ => ([0], [(1 : ℚ)/2])) "dogs" 5, 0 ≤ r.score ∧ r.score ≤ 1) ∧
    ((BookRetriever.retrieve (fun _ _ => [((default : DocMeta), some (1 : ℚ))])
        "dogs" 5).length : ℤ) ≤ max 5 0 ∧
    (∀ r ∈ BookRetriever.retrieve (fun _ _ => [((default : DocMeta), some (1 : ℚ))])
        "dogs" 5, 0 ≤ r.score ∧ r.score ≤ 1)) :=
  ⟨by decide, by decide,
    C2_at_most_k_and_unit_interval (fun _ => default) _ _ "dogs" 5
      (by decide) (by decide)⟩

/-- C3: in both retriever generations, the cosine similarity calibrated from
a squared-Euclidean distance `d` returned by the nearest-neighbor search is
exactly `min(1, max(0, 1 - d/2))`. -/
theorem C3_calibration_clamp (d : ℚ) :
    BookRetrieverV2.cosine_from_l2_squared d = min 1 (max 0 (1 - d / 2)) ∧
    BookRetriever.cosFromDist (some d) = min 1 (max 0 (1 - d / 2)) := by
  have hmax : max (0 : ℚ) 1 = 1 := max_eq_right (by norm_num)
  have h : pymax 0 (pymin 1 (1 - d / 2)) = min 1 (max 0 (1 - d / 2)) := by
    rw [pymax_eq_max, pymin_eq_min, max_min_distrib_left, hmax]
  exact ⟨h, h⟩

/-- C4: the list returned by one `retrieve` call is sorted non-increasing by
the raw (unrounded) calibrated cosine of each result's stored distance, in
both generations, given the search backend's contract that it returns hits
in ascending-distance (equivalently non-increasing calibrated-cosine)
order.  The final in-code sort is by the rounded presentation score, but
being stable it never disturbs the raw-cosine order. -/
theorem C4_sorted_desc_by_raw_cosine
    (meta : ℕ → MetaRow) (searchV2 : String → ℤ → List ℤ × List ℚ)
    (searchV1 : String → ℤ → List (DocMeta × Option ℚ))
    (q : String) (k : ℤ)
    (h2 : ((searchV2 ("query: " ++ q) k).2).Pairwise (· ≤ ·))
    (h1 : (searchV1 ("query: " ++ q) k).Pairwise fun p r =>
      BookRetriever.cosFromDist r.2 ≤ BookRetriever.cosFromDist p.2) :
    (BookRetrieverV2.retrieve meta searchV2 q k).Chain' (fun a b =>
      BookRetrieverV2.cosine_from_l2_squared b.distance ≤
        BookRetrieverV2.cosine_from_l2_squared a.distance) ∧
    (BookRetriever.retrieve searchV1 q k).Chain' (fun a b =>
      BookRetriever.cosFromDist b.distance ≤
        BookRetriever.cosFromDist a.distance) := by
  constructor
  · unfold BookRetrieverV2.retrieve
    split_ifs
    · exact List.chain'_nil
    · exact List.chain'_nil
    · exact (retrieveV2core_pairwise _ _ _ h2).chain'
  · exact (retrieveV1core_pairwise _ h1).chain'

unseal Rat.add Rat.sub Rat.mul Rat.inv in
/-- Witness for C4 at a concrete store and query. -/
theorem C4_witness :
    ((((fun (_ : String) (_ : ℤ) => ([0, 1], [(0 : ℚ), 1])) ("query: " ++ "dogs")
        (2 : ℤ)).2).Pairwise (· ≤ ·)) ∧
    (((fun (_ : String) (_ : ℤ) =>
        [((default : DocMeta), some (0 : ℚ)), ((default : DocMeta), some (2 : ℚ))])
        ("query: " ++ "dogs") (2 : ℤ)).Pairwise fun p r =>
      BookRetriever.cosFromDist r.2 ≤ BookRetriever.cosFromDist p.2) ∧
    ((BookRetrieverV2.retrieve (fun _ => default)
        (fun _ _ => ([0, 1], [(0 : ℚ), 1])) "dogs" 2).Chain' (fun a b =>
      BookRetrieverV2.cosine_from_l2_squared b.distance ≤
        BookRetrieverV2.cosine_from_l2_squared a.distance) ∧
    (BookRetriever.retrieve (fun _ _ =>
        [((default : DocMeta), some (0 : ℚ)), ((default : DocMeta), some (2 : ℚ))])
        "dogs" 2).Chain' (fun a b =>
      BookRetriever.cosFromDist b.distance ≤
        BookRetriever.cosFromDist a.distance)) :=
  ⟨by decide, by decide,
    C4_sorted_desc_by_raw_cosine (fun _ => default) _ _ "dogs" 2
      (by decide) (by decide)⟩

unseal Rat.add Rat.sub Rat.mul Rat.inv in
/-- C5 counterexample: the generation-1 `BookRetriever.retrieve` has no
guard for empty queries: against a store whose search returns a hit for the
embedded query text (as FAISS does whenever the store is non-empty), the
empty query produces a non-empty result list instead of `[]`. -/
theorem C5_counterexample :
    BookRetriever.retrieve (fun _ _ => [((default : DocMeta), some (1 : ℚ))])
      "" 5 ≠ [] := by decide

/-- C5 amended: only the generation-2 retriever short-circuits: it returns
`[]` without raising for every empty or whitespace-only query and for every
non-positive `top_k`.  The generation-1 retriever has no such guard: it
always embeds the (possibly empty) query, performs the search, and returns
one result per search hit. -/
theorem C5_amended_guard
    (meta : ℕ → MetaRow) (searchV2 : String → ℤ → List ℤ × List ℚ)
    (searchV1 : String → ℤ → List (DocMeta × Option ℚ))
    (query : String) (top_k : ℤ) (q1 : String) (k1 : ℤ)
    (hq : query = "" ∨ query.trim = "" ∨ top_k ≤ 0) :
    BookRetrieverV2.retrieve meta searchV2 query top_k = [] ∧
    (BookRetriever.retrieve searchV1 q1 k1).length =
      (searchV1 ("query: " ++ q1) k1).length := by
  constructor
  · unfold BookRetrieverV2.retrieve
    by_cases h1 : query = "" ∨ query.trim = ""
    · rw [if_pos h1]
    · rcases hq with hq | hq | hq
      · exact absurd (Or.inl hq) h1
      · exact absurd (Or.inr hq) h1
      · rw [if_neg h1, if_pos hq]
  · exact length_retrieveV1core _

unseal Rat.add Rat.sub Rat.mul Rat.inv in
/-- Witness for the amended C5: whitespace query on v2, and the v1
pass-through length on a one-hit store. -/
theorem C5_amended_witness :
    (("" : String) = "" ∨ ("" : String).trim = "" ∨ (5 : ℤ) ≤ 0) ∧
    (BookRetrieverV2.retrieve (fun _ => default)
        (fun _ _ => ([0], [(1 : ℚ)])) "" 5 = [] ∧
    (BookRetriever.retrieve (fun _ _ => [((default : DocMeta), some (1 : ℚ))])
        "dogs" 5).length =
      ((fun (_ : String) (_ : ℤ) => [((default : DocMeta), some (1 : ℚ))])
        ("query: " ++ "dogs") (5 : ℤ)).length) :=
  ⟨Or.inl rfl,
    C5_amended_guard (fun _ => default) _ _ "" 5 "dogs" 5 (Or.inl rfl)⟩

theorem exists_of_mem_retrieveV1core_rel {pairs : List (DocMeta × Option ℚ)}
    {r : ResultV1} (hr : r ∈ BookRetriever.retrieveCore pairs) :
    ∃ (rank : ℕ) (pd : DocMeta × Option ℚ), pd ∈ pairs ∧
      r = BookRetriever.mkResult rank pd.1 pd.2 (BookRetriever.cosFromDist pd.2)
        (1/10 + ((BookRetriever.cosFromDist pd.2 - BookRetriever.cminOf pairs) /
          (BookRetriever.cmaxOf pairs - BookRetriever.cminOf pairs +
            BookRetriever.eps)) * (9/10)) := by
  rw [retrieveV1core_eq, mem_sortByKeyDesc] at hr
  rcases List.mem_map.mp hr with ⟨ip, hip, rfl⟩
  exact ⟨ip.1, ip.2, mem_withRanks hip, rfl⟩

theorem retrieveV1core_of_sorted (pairs : List (DocMeta × Option ℚ))
    (hs : pairs.Pairwise fun p q =>
      BookRetriever.cosFromDist q.2 ≤ BookRetriever.cosFromDist p.2) :
    BookRetriever.retrieveCore pairs =
      (withRanks 1 pairs).map fun ip =>
        BookRetriever.mkResult ip.1 ip.2.1 ip.2.2
          (BookRetriever.cosFromDist ip.2.2)
          (1/10 + ((BookRetriever.cosFromDist ip.2.2 - BookRetriever.cminOf pairs) /
            (BookRetriever.cmaxOf pairs - BookRetriever.cminOf pairs +
              BookRetriever.eps)) * (9/10)) := by
  rw [retrieveV1core_eq]
  apply sortByKeyDesc_eq_self
  rw [List.pairwise_map]
  exact (pairwise_withRanks hs).imp fun h => roundTo_mono 3 h

theorem eps_pos : (0 : ℚ) < BookRetriever.eps := by norm_num [BookRetriever.eps]

theorem pyRound_rel_top_iff {Δ : ℚ} (hΔ : 0 ≤ Δ) :
    pyRound ((1/10 + (Δ / (Δ + BookRetriever.eps)) * (9/10)) * 100) = 100 ↔
      179 * BookRetriever.eps ≤ Δ := by
  have heps := eps_pos
  have hden : 0 < Δ + BookRetriever.eps := by linarith
  have hr0 : 0 ≤ Δ / (Δ + BookRetriever.eps) := div_nonneg hΔ hden.le
  have hr1 : Δ / (Δ + BookRetriever.eps) < 1 := (div_lt_one hden).mpr (by linarith)
  have harg : (1/10 + (Δ / (Δ + BookRetriever.eps)) * (9/10)) * 100 =
      10 + 90 * (Δ / (Δ + BookRetriever.eps)) := by ring
  rw [harg]
  constructor
  · intro h100
    by_contra hlt
    push_neg at hlt
    have hrlt : Δ / (Δ + BookRetriever.eps) < 179/180 := by
      rw [div_lt_iff₀ hden]
      linarith
    have hsmall : 10 + 90 * (Δ / (Δ + BookRetriever.eps)) < (99 : ℤ) + 1/2 := by
      push_cast
      linarith
    have := pyRound_le_of_lt_add_half hsmall
    omega
  · intro hge
    have hrge : (179 : ℚ)/180 ≤ Δ / (Δ + BookRetriever.eps) := by
      rw [le_div_iff₀ hden]
      linarith
    have harg1 : (199 : ℚ)/2 ≤ 10 + 90 * (Δ / (Δ + BookRetriever.eps)) := by linarith
    have harg2 : 10 + 90 * (Δ / (Δ + BookRetriever.eps)) < 100 := by linarith
    have hfl : ⌊(10 + 90 * (Δ / (Δ + BookRetriever.eps)) : ℚ)⌋ = 99 := by
      rw [Int.floor_eq_iff]
      constructor
      · push_cast
        linarith
      · push_cast
        linarith
    unfold pyRound
    rw [ratFloor_eq, hfl]
    split_ifs with h1 h2 h3
    · push_cast at h1
      linarith
    · rfl
    · omega
    · rfl

unseal Rat.add Rat.sub Rat.mul Rat.inv in
/-- C6 counterexample: with two results whose raw cosines differ by exactly
`eps = 1e-8` (distances `1` and `1 + 2e-8`), the scores are not all equal,
yet the top-ranked result's set-relative percentage is `55`, not `100`: the
ε in the denominator keeps the normalized gap at `1/2`.  So the claim that
the top result shows 100% whenever not all scores tie is false. -/
theorem C6_counterexample :
    ((BookRetriever.retrieveCore
        [((default : DocMeta), some (1 : ℚ)),
         ((default : DocMeta), some ((1 : ℚ) + 1/50000000))]).map fun r => r.rel_pct) =
      [55, 10] ∧
    BookRetriever.cosFromDist (some (1 : ℚ)) ≠
      BookRetriever.cosFromDist (some ((1 : ℚ) + 1/50000000)) := by decide

/-- C6 amended: each generation-1 result carries
`rel_pct = round(10 + 90·(c − c_min)/(c_max − c_min + ε))` with `ε = 1e-8`
over the raw cosines `c` of the result set, every displayed value lies in
`[10, 100]` (so the lowest result never shows 0%), and the top-ranked
result's value equals 100 exactly when `c_max − c_min ≥ 179·ε` — not
whenever the scores are unequal.  (The generation-2 retriever computes no
set-relative field at all.) -/
theorem C6_amended_set_relative (pairs : List (DocMeta × Option ℚ))
    (hs : pairs.Pairwise fun p q =>
      BookRetriever.cosFromDist q.2 ≤ BookRetriever.cosFromDist p.2) :
    (∀ r ∈ BookRetriever.retrieveCore pairs,
        r.rel_pct = pyRound (10 + 90 *
          ((BookRetriever.cosFromDist r.distance - BookRetriever.cminOf pairs) /
            (BookRetriever.cmaxOf pairs - BookRetriever.cminOf pairs +
              BookRetriever.eps)))) ∧
    (∀ r ∈ BookRetriever.retrieveCore pairs, 10 ≤ r.rel_pct ∧ r.rel_pct ≤ 100) ∧
    (∀ r0, (BookRetriever.retrieveCore pairs).head? = some r0 →
        (r0.rel_pct = 100 ↔
          179 * BookRetriever.eps ≤
            BookRetriever.cmaxOf pairs - BookRetriever.cminOf pairs)) := by
  have heps := eps_pos
  refine ⟨?_, ?_, ?_⟩
  · intro r hr
    rcases exists_of_mem_retrieveV1core_rel hr with ⟨rank, pd, hpd, rfl⟩
    show pyRound ((1/10 + ((BookRetriever.cosFromDist pd.2 - BookRetriever.cminOf pairs) /
        (BookRetriever.cmaxOf pairs - BookRetriever.cminOf pairs +
          BookRetriever.eps)) * (9/10)) * 100) =
      pyRound (10 + 90 *
        ((BookRetriever.cosFromDist pd.2 - BookRetriever.cminOf pairs) /
          (BookRetriever.cmaxOf pairs - BookRetriever.cminOf pairs +
            BookRetriever.eps)))
    exact congrArg pyRound (by ring)
  · intro r hr
    rcases exists_of_mem_retrieveV1core_rel hr with ⟨rank, pd, hpd, rfl⟩
    have hcmem : BookRetriever.cosFromDist pd.2 ∈
        pairs.map fun p => BookRetriever.cosFromDist p.2 :=
      List.mem_map_of_mem _ hpd
    have hcmax : BookRetriever.cosFromDist pd.2 ≤ BookRetriever.cmaxOf pairs :=
      le_listMax 1 hcmem
    have hcmin : BookRetriever.cminOf pairs ≤ BookRetriever.cosFromDist pd.2 :=
      listMin_le 0 hcmem
    have hΔ : 0 ≤ BookRetriever.cmaxOf pairs - BookRetriever.cminOf pairs := by
      linarith
    have hden : 0 < BookRetriever.cmaxOf pairs - BookRetriever.cminOf pairs +
        BookRetriever.eps := by linarith
    have hq0 : 0 ≤ (BookRetriever.cosFromDist pd.2 - BookRetriever.cminOf pairs) /
        (BookRetriever.cmaxOf pairs - BookRetriever.cminOf pairs +
          BookRetriever.eps) := div_nonneg (by linarith) hden.le
    have hq1 : (BookRetriever.cosFromDist pd.2 - BookRetriever.cminOf pairs) /
        (BookRetriever.cmaxOf pairs - BookRetriever.cminOf pairs +
          BookRetriever.eps) < 1 := (div_lt_one hden).mpr (by linarith)
    constructor
    · show (10 : ℤ) ≤ pyRound ((1/10 + _ * (9/10)) * 100)
      apply le_pyRound
      push_cast
      nlinarith
    · show pyRound ((1/10 + _ * (9/10)) * 100) ≤ (100 : ℤ)
      apply pyRound_le_of_lt_add_half
      push_cast
      nlinarith
  · intro r0 hr0
    have hne : pairs ≠ [] := by
      rintro rfl
      have h0 : BookRetriever.retrieveCore ([] : List (DocMeta × Option ℚ)) = [] := rfl
      rw [h0] at hr0
      exact Option.noConfusion hr0
    rcases List.exists_cons_of_ne_nil hne with ⟨p0, rest, rfl⟩
    rw [retrieveV1core_of_sorted _ hs] at hr0
    rw [withRanks, List.map_cons, List.head?_cons, Option.some_inj] at hr0
    have hcmax : BookRetriever.cosFromDist p0.2 = BookRetriever.cmaxOf (p0 :: rest) := by
      unfold BookRetriever.cmaxOf
      rw [List.map_cons]
      refine (listMax_cons_of_le 1 ?_).symm
      intro y hy
      rcases List.mem_map.mp hy with ⟨pq, hpq, rfl⟩
      exact (List.pairwise_cons.mp hs).1 pq hpq
    have hcmem : BookRetriever.cosFromDist p0.2 ∈
        (p0 :: rest).map fun p => BookRetriever.cosFromDist p.2 :=
      List.mem_map_of_mem _ (List.mem_cons_self p0 rest)
    have hcmin : BookRetriever.cminOf (p0 :: rest) ≤ BookRetriever.cosFromDist p0.2 :=
      listMin_le 0 hcmem
    have hΔ : 0 ≤ BookRetriever.cmaxOf (p0 :: rest) - BookRetriever.cminOf (p0 :: rest) := by
      rw [← hcmax]
      linarith
    subst hr0
    show pyRound ((1/10 + ((BookRetriever.cosFromDist p0.2 -
        BookRetriever.cminOf (p0 :: rest)) /
        (BookRetriever.cmaxOf (p0 :: rest) - BookRetriever.cminOf (p0 :: rest) +
          BookRetriever.eps)) * (9/10)) * 100) = 100 ↔ _
    rw [hcmax]
    exact pyRound_rel_top_iff hΔ

unseal Rat.add Rat.sub Rat.mul Rat.inv in
/-- Witness for the amended C6 on a concrete sorted two-result set. -/
theorem C6_amended_witness :
    (([((default : DocMeta), some (1 : ℚ)),
       ((default : DocMeta), some ((1 : ℚ) + 1/50000000))]).Pairwise fun p q =>
      BookRetriever.cosFromDist q.2 ≤ BookRetriever.cosFromDist p.2) ∧
    ((∀ r ∈ BookRetriever.retrieveCore
        [((default : DocMeta), some (1 : ℚ)),
         ((default : DocMeta), some ((1 : ℚ) + 1/50000000))],
        r.rel_pct = pyRound (10 + 90 *
          ((BookRetriever.cosFromDist r.distance -
            BookRetriever.cminOf
              [((default : DocMeta), some (1 : ℚ)),
               ((default : DocMeta), some ((1 : ℚ) + 1/50000000))]) /
            (BookRetriever.cmaxOf
              [((default : DocMeta), some (1 : ℚ)),
               ((default : DocMeta), some ((1 : ℚ) + 1/50000000))] -
             BookRetriever.cminOf
              [((default : DocMeta), some (1 : ℚ)),
               ((default : DocMeta), some ((1 : ℚ) + 1/50000000))] +
              BookRetriever.eps)))) ∧
    (∀ r ∈ BookRetriever.retrieveCore
        [((default : DocMeta), some (1 : ℚ)),
         ((default : DocMeta), some ((1 : ℚ) + 1/50000000))],
        10 ≤ r.rel_pct ∧ r.rel_pct ≤ 100) ∧
    (∀ r0, (BookRetriever.retrieveCore
        [((default : DocMeta), some (1 : ℚ)),
         ((default : DocMeta), some ((1 : ℚ) + 1/50000000))]).head? = some r0 →
        (r0.rel_pct = 100 ↔
          179 * BookRetriever.eps ≤
            BookRetriever.cmaxOf
              [((default : DocMeta), some (1 : ℚ)),
               ((default : DocMeta), some ((1 : ℚ) + 1/50000000))] -
            BookRetriever.cminOf
              [((default : DocMeta), some (1 : ℚ)),
               ((default : DocMeta), some ((1 : ℚ) + 1/50000000))]))) :=
  ⟨by decide, C6_amended_set_relative _ (by decide)⟩

/-- C7: every result returned by the generation-1 retriever has its star
rating in `{0.5, 1.0, …, 5.0}` — it equals the raw cosine times 5, rounded
to the nearest half star, floored at `0.5`, and is never below `0.5`. -/
theorem C7_star_rating (pairs : List (DocMeta × Option ℚ)) :
    ∀ r ∈ BookRetriever.retrieveCore pairs,
      (∃ m : ℕ, 1 ≤ m ∧ m ≤ 10 ∧ r.stars = (m : ℚ) / 2) ∧
      1/2 ≤ r.stars ∧
      r.stars = pymax (1/2)
        ((pyRound (BookRetriever.cosFromDist r.distance * 5 * 2) : ℚ) / 2) := by
  intro r hr
  rcases exists_of_mem_retrieveV1core hr with ⟨rank, pd, rel, hpd, rfl⟩
  have hc0 := cosFromDist_nonneg pd.2
  have hc1 := cosFromDist_le_one pd.2
  have hk0 : (0 : ℤ) ≤ pyRound (BookRetriever.cosFromDist pd.2 * 5 * 2) :=
    pyRound_nonneg (by nlinarith)
  have hk10 : pyRound (BookRetriever.cosFromDist pd.2 * 5 * 2) ≤ 10 :=
    pyRound_le (by push_cast; nlinarith)
  have hstars : (BookRetriever.mkResult rank pd.1 pd.2
      (BookRetriever.cosFromDist pd.2) rel).stars =
      BookRetriever.to_stars (BookRetriever.cosFromDist pd.2) := rfl
  refine ⟨?_, ?_, rfl⟩
  · rw [hstars]
    unfold BookRetriever.to_stars
    rw [pymax_eq_max]
    rcases Int.lt_or_le (pyRound (BookRetriever.cosFromDist pd.2 * 5 * 2)) 1 with hk | hk
    · have hkz : pyRound (BookRetriever.cosFromDist pd.2 * 5 * 2) = 0 := by omega
      refine ⟨1, le_rfl, by norm_num, ?_⟩
      rw [hkz]
      norm_num
    · refine ⟨(pyRound (BookRetriever.cosFromDist pd.2 * 5 * 2)).toNat,
        by omega, by omega, ?_⟩
      have hcast : (((pyRound (BookRetriever.cosFromDist pd.2 * 5 * 2)).toNat : ℚ)) =
          ((pyRound (BookRetriever.cosFromDist pd.2 * 5 * 2) : ℤ) : ℚ) := by
        exact_mod_cast Int.toNat_of_nonneg hk0
      rw [max_eq_right, hcast]
      have hge1 : (1 : ℚ) ≤ (pyRound (BookRetriever.cosFromDist pd.2 * 5 * 2) : ℚ) := by
        exact_mod_cast hk
      linarith
  · rw [hstars]
    unfold BookRetriever.to_stars
    rw [pymax_eq_max]
    exact le_max_left _ _

unseal Rat.add Rat.sub Rat.mul Rat.inv in
/-- Witness for C7 on a concrete one-hit result set. -/
theorem C7_witness :
    ((BookRetriever.retrieveCore [((default : DocMeta), some (1 : ℚ))]).getD 0
        default ∈
      BookRetriever.retrieveCore [((default : DocMeta), some (1 : ℚ))]) ∧
    ((∃ m : ℕ, 1 ≤ m ∧ m ≤ 10 ∧
        ((BookRetriever.retrieveCore [((default : DocMeta), some (1 : ℚ))]).getD 0
          default).stars = (m : ℚ) / 2) ∧
      1/2 ≤ ((BookRetriever.retrieveCore
        [((default : DocMeta), some (1 : ℚ))]).getD 0 default).stars ∧
      ((BookRetriever.retrieveCore [((default : DocMeta), some (1 : ℚ))]).getD 0
        default).stars = pymax (1/2)
        ((pyRound (BookRetriever.cosFromDist
          ((BookRetriever.retrieveCore
            [((default : DocMeta), some (1 : ℚ))]).getD 0 default).distance
          * 5 * 2) : ℚ) / 2)) :=
  ⟨by decide, C7_star_rating [((default : DocMeta), some (1 : ℚ))]
    ((BookRetriever.retrieveCore [((default : DocMeta), some (1 : ℚ))]).getD 0
      default) (by decide)⟩

/-- C8: on a dataset with zero rows the index build fails before any
embedding work: the result is an error, and the emitted trace contains no
embedding call and neither artifact write. -/
theorem C8_empty_dataset_fatal (df : BuildIndexV2.DataFrame) (h : df.rows = []) :
    (∃ e, (BuildIndexV2.build_index_v2 df).1 = .error e) ∧
    ∀ ev ∈ (BuildIndexV2.build_index_v2 df).2,
      (∀ ts, ev ≠ .embedCall ts) ∧ ev ≠ .writeIndex ∧ ev ≠ .writeMeta := by
  rcases hex : BuildIndexV2.ensure_columns df with e | meta
  · refine ⟨⟨e, ?_⟩, ?_⟩
    · simp [BuildIndexV2.build_index_v2, hex]
    · intro ev hev
      simp [BuildIndexV2.build_index_v2, hex] at hev
  · have hlen : meta.length = 0 := by
      unfold BuildIndexV2.ensure_columns at hex
      by_cases hcols : ("title" ∈ df.cols ∧ "author" ∈ df.cols ∧
          "description" ∈ df.cols)
      · rw [if_pos hcols, Except.ok.injEq] at hex
        rw [← hex, List.length_map, length_withRanks, h]
        rfl
      · rw [if_neg hcols] at hex
        cases hex
    refine ⟨⟨.emptyData, ?_⟩, ?_⟩
    · simp [BuildIndexV2.build_index_v2, hex, hlen]
    · intro ev hev
      simp only [BuildIndexV2.build_index_v2, hex, hlen, if_pos,
        List.mem_singleton] at hev
      subst hev
      exact ⟨fun ts => by simp, by simp, by simp⟩

/-- Witness for C8 on a concrete empty dataframe with all columns present. -/
theorem C8_witness :
    (BuildIndexV2.DataFrame.mk ["title", "author", "description"] []).rows = [] ∧
    ((∃ e, (BuildIndexV2.build_index_v2
        ⟨["title", "author", "description"], []⟩).1 = .error e) ∧
      ∀ ev ∈ (BuildIndexV2.build_index_v2
        ⟨["title", "author", "description"], []⟩).2,
        (∀ ts, ev ≠ .embedCall ts) ∧ ev ≠ .writeIndex ∧ ev ≠ .writeMeta) :=
  ⟨rfl, C8_empty_dataset_fatal _ rfl⟩

set_option maxRecDepth 8192 in
/-- C9 counterexample: on a concrete one-row dataset the build's full action
trace is model load, one embedding call, then the two artifact writes — and
nothing else: it re-opens neither artifact, so no post-write verification
step (re-open both artifacts and compare counts) is ever performed. -/
theorem C9_counterexample :
    (BuildIndexV2.build_index_v2
        ⟨["title", "author", "description"],
         [(some "A", some "B", some "C")]⟩).2 =
      [.modelLoad,
       .embedCall [BuildIndexV2.make_passage_text "A" "B" "C"],
       .writeIndex, .writeMeta] ∧
    BuildIndexV2.BuildEvent.reopenIndex ∉
      (BuildIndexV2.build_index_v2
        ⟨["title", "author", "description"],
         [(some "A", some "B", some "C")]⟩).2 ∧
    BuildIndexV2.BuildEvent.reopenMeta ∉
      (BuildIndexV2.build_index_v2
        ⟨["title", "author", "description"],
         [(some "A", some "B", some "C")]⟩).2 := by decide

/-- C9 amended: the build never performs a post-write verification.  Its
trace re-opens neither artifact, and is exactly: nothing (missing columns),
just the model load (empty dataset), or model load, one embed call per
batch, and the two artifact writes as the final actions. -/
theorem C9_amended_no_postwrite_verification (df : BuildIndexV2.DataFrame) :
    (BuildIndexV2.BuildEvent.reopenIndex ∉ (BuildIndexV2.build_index_v2 df).2 ∧
     BuildIndexV2.BuildEvent.reopenMeta ∉ (BuildIndexV2.build_index_v2 df).2) ∧
    ((BuildIndexV2.build_index_v2 df).2 = [] ∨
     (BuildIndexV2.build_index_v2 df).2 = [.modelLoad] ∨
     ∃ batches : List (List String),
       (BuildIndexV2.build_index_v2 df).2 =
         .modelLoad :: batches.map .embedCall ++ [.writeIndex, .writeMeta]) := by
  rcases hex : BuildIndexV2.ensure_columns df with e | meta
  · constructor
    · constructor <;> simp [BuildIndexV2.build_index_v2, hex]
    · left
      simp [BuildIndexV2.build_index_v2, hex]
  · by_cases hlen : meta.length = 0
    · constructor
      · constructor <;> simp [BuildIndexV2.build_index_v2, hex, hlen]
      · right; left
        simp [BuildIndexV2.build_index_v2, hex, hlen]
    · constructor
      · constructor <;> simp [BuildIndexV2.build_index_v2, hex, hlen]
      · right; right
        refine ⟨(BuildIndexV2.chunks meta).map fun ch =>
          ch.map fun r =>
            BuildIndexV2.make_passage_text r.title r.author r.description, ?_⟩
        simp [BuildIndexV2.build_index_v2, hex, hlen, List.map_map]

theorem foldScores_notMem :
    ∀ (l : List (ℕ × ℚ)) (h : BookReranker.Heap) (r : ℕ), r ∉ l.map Prod.fst →
      (l.foldl (fun hh rs =>
        Function.update hh rs.1 (BookReranker.setScore (hh rs.1) rs.2)) h) r = h r := by
  intro l
  induction l with
  | nil => intro h r _; rfl
  | cons a tl ih =>
    intro h r hr
    rw [List.map_cons, List.mem_cons] at hr
    push_neg at hr
    rw [List.foldl_cons, ih _ r hr.2]
    exact Function.update_noteq hr.1 _ _

theorem foldScores_isSome :
    ∀ (l : List (ℕ × ℚ)) (h : BookReranker.Heap) (r : ℕ), r ∈ l.map Prod.fst →
      ((l.foldl (fun hh rs =>
        Function.update hh rs.1 (BookReranker.setScore (hh rs.1) rs.2)) h) r).rerank_score.isSome
        = true := by
  intro l
  induction l with
  | nil => intro h r hr; cases hr
  | cons a tl ih =>
    intro h r hr
    rw [List.foldl_cons]
    by_cases hmem : r ∈ tl.map Prod.fst
    · exact ih _ r hmem
    · have hra : r = a.1 := by
        rw [List.map_cons, List.mem_cons] at hr
        tauto
      subst hra
      rw [foldScores_notMem tl _ _ hmem, Function.update_same]
      rfl

theorem map_fst_zip_of_le :
    ∀ (l₁ : List α) (l₂ : List β), l₁.length ≤ l₂.length →
      (l₁.zip l₂).map Prod.fst = l₁
  | [], _, _ => rfl
  | _ :: _, [], h => by simp at h
  | x :: xs, y :: ys, h => by
    rw [List.zip_cons_cons, List.map_cons, map_fst_zip_of_le xs ys (by
      simpa using Nat.le_of_succ_le_succ h)]

/-- C10: `BookReranker.rerank` mutates its input in place: every dict in the
caller's candidate list — including those ranked beyond `top_k` that are not
returned — gains (or has overwritten) a `rerank_score` entry, dicts outside
the list are untouched, and the returned list consists of references into
the same heap drawn from the input list, sorted descending by the new score
and truncated to `top_k`. -/
theorem C10_rerank_mutates_in_place
    (predict : List (String × String) → List ℚ) (heap : BookReranker.Heap)
    (q : String) (cands : List ℕ) (k : ℕ)
    (hp : (predict (cands.map fun r => (q, (heap r).content))).length =
      cands.length) :
    (∀ r ∈ cands,
      (((BookReranker.rerank predict heap q cands k).1 r).rerank_score).isSome
        = true) ∧
    (∀ r, r ∉ cands → (BookReranker.rerank predict heap q cands k).1 r = heap r) ∧
    (∀ r ∈ (BookReranker.rerank predict heap q cands k).2, r ∈ cands) ∧
    (BookReranker.rerank predict heap q cands k).2.length = min k cands.length ∧
    (BookReranker.rerank predict heap q cands k).2.Pairwise fun a b =>
      (((BookReranker.rerank predict heap q cands k).1 b).rerank_score).getD 0 ≤
        (((BookReranker.rerank predict heap q cands k).1 a).rerank_score).getD 0 := by
  have hmapfst : (cands.zip
      (predict (cands.map fun r => (q, (heap r).content)))).map Prod.fst = cands :=
    map_fst_zip_of_le _ _ (le_of_eq hp.symm)
  refine ⟨?_, ?_, ?_, ?_, ?_⟩
  · intro r hr
    exact foldScores_isSome _ _ r (by rw [hmapfst]; exact hr)
  · intro r hr
    exact foldScores_notMem _ _ r (by rw [hmapfst]; exact hr)
  · intro r hr
    have hr' := List.mem_of_mem_take hr
    rwa [mem_sortByKeyDesc] at hr'
  · show ((sortByKeyDesc _ cands).take k).length = min k cands.length
    rw [List.length_take, length_sortByKeyDesc]
  · exact (sorted_sortByKeyDesc _ cands).sublist (List.take_sublist k _)

/-- Witness for C10 on a concrete three-candidate heap with `top_k = 2`. -/
theorem C10_witness :
    (((fun ps : List (String × String) => ps.map fun _ => (1 : ℚ))
        (([0, 1, 2] : List ℕ).map fun r =>
          ("q", ((fun _ => Candidate.mk "c" none : BookReranker.Heap) r).content))).length =
      ([0, 1, 2] : List ℕ).length) ∧
    ((∀ r ∈ ([0, 1, 2] : List ℕ),
      (((BookReranker.rerank (fun ps : List (String × String) => ps.map fun _ => (1 : ℚ))
          (fun _ => Candidate.mk "c" none) "q" [0, 1, 2] 2).1 r).rerank_score).isSome
        = true) ∧
    (∀ r, r ∉ ([0, 1, 2] : List ℕ) →
      (BookReranker.rerank (fun ps : List (String × String) => ps.map fun _ => (1 : ℚ))
          (fun _ => Candidate.mk "c" none) "q" [0, 1, 2] 2).1 r =
        (fun _ => Candidate.mk "c" none : BookReranker.Heap) r) ∧
    (∀ r ∈ (BookReranker.rerank (fun ps : List (String × String) => ps.map fun _ => (1 : ℚ))
        (fun _ => Candidate.mk "c" none) "q" [0, 1, 2] 2).2,
      r ∈ ([0, 1, 2] : List ℕ)) ∧
    (BookReranker.rerank (fun ps : List (String × String) => ps.map fun _ => (1 : ℚ))
        (fun _ => Candidate.mk "c" none) "q" [0, 1, 2] 2).2.length =
      min 2 ([0, 1, 2] : List ℕ).length ∧
    (BookReranker.rerank (fun ps : List (String × String) => ps.map fun _ => (1 : ℚ))
        (fun _ => Candidate.mk "c" none) "q" [0, 1, 2] 2).2.Pairwise fun a b =>
      (((BookReranker.rerank (fun ps : List (String × String) => ps.map fun _ => (1 : ℚ))
          (fun _ => Candidate.mk "c" none) "q" [0, 1, 2] 2).1 b).rerank_score).getD 0 ≤
        (((BookReranker.rerank (fun ps : List (String × String) => ps.map fun _ => (1 : ℚ))
          (fun _ => Candidate.mk "c" none) "q" [0, 1, 2] 2).1 a).rerank_score).getD 0) :=
  ⟨rfl, C10_rerank_mutates_in_place _ _ "q" [0, 1, 2] 2 rfl⟩

end AIBook
